import Mathlib

/-!
# A user API client: retry, status check and decode pipeline

Shallow embedding of `main.go` (package `apiclient`): the `User` record with its JSON
field tags, the constructor `NewClient`, and the three operations `CreateUser`,
`UpdateUser` and `GetUser` of `*userClient`.

Modelling decisions.

* Effects are explicit. An operation is a function `State σ → Outcome User × State σ`;
  the state holds the receiver struct, the state of the network behind the
  `*http.Client`, and a trace of the observable effects (send attempts with their
  results, and calls of `time.Sleep`).
* The `*http.Client` is its behaviour: a deterministic step function on the network
  state `σ` (`Transport σ`); `none` is the nil pointer, on which a method call panics.
* `encoding/json` is outside the repository. `Marshal` is modelled on the field tags of
  `User` and yields the document as a tree (the byte rendering and its escaping are not
  modelled); the decoder is a parameter (`Env.decode`), and `Decode` is a model of the
  stream decoder of the library, on which the operations are evaluated.
* `http.NewRequest` validates its arguments; the validation is a parameter
  (`Env.newRequestErr`). `Client.Get` and `Client.Post` build their request themselves;
  a failure to do so is a failure of that send attempt and belongs to the transport.
* A send attempt is one call of `Do`, `Get` or `Post` on the client, whatever happens
  below it (redirects, connection reuse).
* `defer resp.Body.Close()` has no effect the model observes and is left out.
* Go `int` fields are `Int`, `time.Duration` is a `Nat` count of nanoseconds; no
  arithmetic on either can overflow in this program.
-/

namespace ApiClient

/-! ## Data model -/

/-- The Go struct `User` (main.go, lines 11-15). -/
structure User where
  ID : String
  Name : String
  Age : Int
deriving DecidableEq, Repr

/-- A Go `error` value, identified by the text `err.Error()` returns. -/
structure Error where
  msg : String
deriving DecidableEq, Repr

/-- Value built by `fmt.Errorf(format, arg)` for a format `<text>%s`. -/
def Errorf (text arg : String) : Error := ⟨text ++ arg⟩

/-- A scalar JSON value, as written for a field of `User`. -/
inductive JSONValue where
  | str (s : String)
  | num (n : Int)
deriving DecidableEq, Repr

/-- The JSON document `json.Marshal` produces for a `*User`. -/
inductive JSONDoc where
  | null
  | object (members : List (String × JSONValue))
deriving DecidableEq, Repr

/-- A struct tag `json:"<name>[,omitempty]"`. -/
structure FieldTag where
  name : String
  omitempty : Bool
deriving DecidableEq, Repr

/-- The fields of `User` in declaration order, each with its tag (lines 12-14). -/
def User.fields (u : User) : List (FieldTag × JSONValue) :=
  [ (⟨"id", true⟩, .str u.ID),
    (⟨"name", false⟩, .str u.Name),
    (⟨"age", false⟩, .num u.Age) ]

/-- The empty values of `omitempty`: the empty string and the number zero. -/
def JSONValue.isEmptyValue : JSONValue → Bool
  | .str s => decide (s = "")
  | .num n => decide (n = 0)

/-- The call `json.Marshal(user)` for `user : *User`: a nil pointer is written as
`null`; a struct is written as an object of its fields in declaration order, a field
tagged `omitempty` being left out when its value is empty. The second component is
the returned `error`. -/
def Marshal (user : Option User) : JSONDoc × Option Error :=
  match user with
  | none => (.null, none)
  | some u =>
    (.object ((u.fields.filter (fun f => !(f.1.omitempty && f.2.isEmptyValue))).map
      (fun f => (f.1.name, f.2))), none)

/-- An `*http.Request`: method, URL, header and body. -/
structure Request where
  Method : String
  URL : String
  Header : List (String × String)
  Body : Option JSONDoc
deriving DecidableEq, Repr

/-- An `*http.Response`: the fields the client reads. -/
structure Response where
  StatusCode : Int
  Status : String
  Body : String
deriving DecidableEq, Repr

/-- The result of one send attempt. -/
inductive SendResult where
  | ok (resp : Response)
  | fail (err : Error)
deriving DecidableEq, Repr

/-- The behaviour of an `*http.Client`: one send attempt on network state `σ`. -/
abbrev Transport (σ : Type) := Request → σ → SendResult × σ

/-- The Go struct `userClient` (lines 23-26); `client = none` is a nil pointer. -/
structure userClient (σ : Type) where
  baseURL : String
  client : Option (Transport σ)

/-- NewClient creates a new user API client (lines 29-34). The value `&http.Client{}`
is the argument `dflt`. -/
def NewClient {σ : Type} (dflt : Transport σ) (remoteService : String) : userClient σ :=
  { baseURL := remoteService, client := some dflt }

/-- An observable effect of a call. -/
inductive Event where
  | send (req : Request) (res : SendResult)
  | sleep (d : Nat)
deriving DecidableEq, Repr

/-- Everything a call can read or change. -/
structure State (σ : Type) where
  u : userClient σ
  net : σ
  trace : List Event

/-- How a call ends: it returns the pair `(value, err)`, or it panics. -/
inductive Outcome (α : Type) where
  | returned (val : Option α) (err : Option Error)
  | panicked
deriving DecidableEq, Repr

/-- The library behaviour the client depends on and that is not part of the repository. -/
structure Env where
  /-- The argument check of `http.NewRequest(method, url, _)`: `none` when accepted. -/
  newRequestErr : String → String → Option Error
  /-- The call `json.NewDecoder(body).Decode(&v)`: the value left in `v` and the error. -/
  decode : String → User → User × Option Error

/-! ## Library primitives -/

def Millisecond : Nat := 1000000

def StatusOK : Int := 200

def StatusCreated : Int := 201

def MethodPut : String := "PUT"

/-- The zero value of `User`, as in `var created User`. -/
def User.zero : User := ⟨"", "", 0⟩

/-- The call `time.Sleep(d)`. -/
def Sleep {σ : Type} (d : Nat) (st : State σ) : State σ :=
  { st with trace := st.trace ++ [Event.sleep d] }

/-- The call `c.Do(req)`: one send attempt; a nil `c` panics. -/
def Client.Do {σ : Type} (c : Option (Transport σ)) (req : Request) (st : State σ) :
    Outcome Response × State σ :=
  match c with
  | none => (.panicked, st)
  | some t =>
    match t req st.net with
    | (.ok resp, net1) =>
      (.returned (some resp) none,
        { st with net := net1, trace := st.trace ++ [Event.send req (.ok resp)] })
    | (.fail e, net1) =>
      (.returned none (some e),
        { st with net := net1, trace := st.trace ++ [Event.send req (.fail e)] })

/-- The call `c.Get(url)`: a GET request without body. -/
def Client.Get {σ : Type} (c : Option (Transport σ)) (url : String) (st : State σ) :
    Outcome Response × State σ :=
  Client.Do c { Method := "GET", URL := url, Header := [], Body := none } st

/-- The call `c.Post(url, contentType, body)`: a POST request with the given content
type and body. -/
def Client.Post {σ : Type} (c : Option (Transport σ)) (url contentType : String)
    (body : JSONDoc) (st : State σ) : Outcome Response × State σ :=
  Client.Do c
    { Method := "POST", URL := url, Header := [("Content-Type", contentType)],
      Body := some body } st

/-- The call `http.NewRequest(method, url, body)`. -/
def NewRequest (env : Env) (method url : String) (body : JSONDoc) :
    Option Request × Option Error :=
  match env.newRequestErr method url with
  | some e => (none, some e)
  | none => (some { Method := method, URL := url, Header := [], Body := some body }, none)

/-- The call `req.Header.Set(key, value)`. -/
def Request.HeaderSet (req : Request) (key value : String) : Request :=
  { req with Header := req.Header.filter (fun kv => decide (kv.1 ≠ key)) ++ [(key, value)] }

/-! ## The retry loop

The three operations contain the same loop

```
for attempt := 1; attempt <= maxRetries; attempt++ {
    x, err = action()
    if err == nil { break }
    if attempt < maxRetries { time.Sleep(100 * time.Millisecond) }
}
```

around different actions. `retryLoop` is that loop; `val` and `err` are the variables
assigned by the action. The first argument after the action bounds the number of
iterations still allowed; the callers pass `maxRetries`, which is never exhausted
before the loop condition fails (`retryLoop_fuel`).
-/

def retryLoop {σ α : Type} (maxRetries : Nat) (action : State σ → Outcome α × State σ) :
    Nat → Nat → Option α → Option Error → State σ → Outcome α × State σ
  | 0, _, val, err, st => (.returned val err, st)
  | fuel + 1, attempt, val, err, st =>
    if attempt ≤ maxRetries then
      match action st with
      | (.panicked, st1) => (.panicked, st1)
      | (.returned val1 none, st1) => (.returned val1 none, st1)
      | (.returned val1 (some e), st1) =>
        retryLoop maxRetries action fuel (attempt + 1) val1 (some e)
          (if attempt < maxRetries then Sleep (100 * Millisecond) st1 else st1)
    else (.returned val err, st)

/-! ## The operations -/

/-- The method `CreateUser` (lines 36-66). -/
def CreateUser {σ : Type} (env : Env) (user : Option User) (st : State σ) :
    Outcome User × State σ :=
  match Marshal user with
  | (_, some e) => (.returned none (some e), st)
  | (body, none) =>
    let maxRetries := 3
    match retryLoop maxRetries
        (fun s => Client.Post s.u.client (s.u.baseURL ++ "/users") "application/json" body s)
        maxRetries 1 none none st with
    | (.panicked, st1) => (.panicked, st1)
    | (.returned _ (some e), st1) => (.returned none (some e), st1)
    | (.returned none none, st1) => (.panicked, st1)
    | (.returned (some resp) none, st1) =>
      if resp.StatusCode ≠ StatusCreated then
        (.returned none (some (Errorf "unexpected status: " resp.Status)), st1)
      else
        match env.decode resp.Body User.zero with
        | (_, some e) => (.returned none (some e), st1)
        | (created, none) => (.returned (some created) none, st1)

/-- The method `UpdateUser` (lines 68-101). The loop is around `http.NewRequest`;
`u.client.Do(req)` is called once, after the loop. -/
def UpdateUser {σ : Type} (env : Env) (id : String) (user : Option User) (st : State σ) :
    Outcome User × State σ :=
  match Marshal user with
  | (_, some e) => (.returned none (some e), st)
  | (body, none) =>
    let maxRetries := 3
    match retryLoop maxRetries
        (fun s =>
          match NewRequest env MethodPut (s.u.baseURL ++ "/users/" ++ id) body with
          | (req, err) => (Outcome.returned req err, s))
        maxRetries 1 none none st with
    | (.panicked, st1) => (.panicked, st1)
    | (.returned _ (some e), st1) => (.returned none (some e), st1)
    | (.returned none none, st1) => (.panicked, st1)
    | (.returned (some req) none, st1) =>
      match Client.Do st1.u.client (req.HeaderSet "Content-Type" "application/json") st1 with
      | (.panicked, st2) => (.panicked, st2)
      | (.returned _ (some e), st2) => (.returned none (some e), st2)
      | (.returned none none, st2) => (.panicked, st2)
      | (.returned (some resp) none, st2) =>
        if resp.StatusCode ≠ StatusOK then
          (.returned none (some (Errorf "unexpected status: " resp.Status)), st2)
        else
          match env.decode resp.Body User.zero with
          | (_, some e) => (.returned none (some e), st2)
          | (updated, none) => (.returned (some updated) none, st2)

/-- The method `GetUser` (lines 103-128). -/
def GetUser {σ : Type} (env : Env) (id : String) (st : State σ) : Outcome User × State σ :=
  let maxRetries := 3
  match retryLoop maxRetries
      (fun s => Client.Get s.u.client (s.u.baseURL ++ "/users/" ++ id) s)
      maxRetries 1 none none st with
  | (.panicked, st1) => (.panicked, st1)
  | (.returned _ (some e), st1) => (.returned none (some e), st1)
  | (.returned none none, st1) => (.panicked, st1)
  | (.returned (some resp) none, st1) =>
    if resp.StatusCode ≠ StatusOK then
      (.returned none (some (Errorf "unexpected status: " resp.Status)), st1)
    else
      match env.decode resp.Body User.zero with
      | (_, some e) => (.returned none (some e), st1)
      | (user, none) => (.returned (some user) none, st1)

/-! ## Reading a trace -/

/-- The send attempts of a trace, in order. -/
def sends : List Event → List (Request × SendResult)
  | [] => []
  | Event.send req res :: es => (req, res) :: sends es
  | Event.sleep _ :: es => sends es

/-- The pauses of a trace, in order. -/
def sleeps : List Event → List Nat
  | [] => []
  | Event.send _ _ :: es => sleeps es
  | Event.sleep d :: es => d :: sleeps es

/-- The events a call added to the trace. -/
def newEvents {σ : Type} (before after : State σ) : List Event :=
  after.trace.drop before.trace.length

/-! ## The interface and the vocabulary of the properties -/

/-- A call of a method of the interface `UserClient` (lines 17-21). -/
inductive Call where
  | create (user : Option User)
  | update (id : String) (user : Option User)
  | get (id : String)
deriving DecidableEq, Repr

/-- Dispatch of a call to the method of `*userClient`. -/
def Call.run {σ : Type} (env : Env) : Call → State σ → Outcome User × State σ
  | .create user => CreateUser env user
  | .update id user => UpdateUser env id user
  | .get id => GetUser env id

/-- The status code an operation compares the response with (lines 58, 93, 120). -/
def Call.expectedStatus : Call → Int
  | .create _ => StatusCreated
  | .update _ _ => StatusOK
  | .get _ => StatusOK

/-- The number of failed attempts in a list of send attempts. -/
def failures : List (Request × SendResult) → Nat
  | [] => 0
  | (_, .fail _) :: rest => failures rest + 1
  | (_, .ok _) :: rest => failures rest

/-- The number of failed attempts that are followed by another attempt. -/
def failedThenRetried : List (Request × SendResult) → Nat
  | [] => 0
  | [_] => 0
  | (_, .fail _) :: next :: rest => failedThenRetried (next :: rest) + 1
  | (_, .ok _) :: next :: rest => failedThenRetried (next :: rest)

/-- What every operation does once its send step is over, given the variables `resp`
and `err` the send step left and the status code to expect: the common text of lines
54-65, 89-100 and 116-127. -/
def respond (env : Env) (expected : Int) : Option Response → Option Error → Outcome User
  | _, some e => .returned none (some e)
  | none, none => .panicked
  | some resp, none =>
    if resp.StatusCode ≠ expected then
      .returned none (some (Errorf "unexpected status: " resp.Status))
    else
      match env.decode resp.Body User.zero with
      | (_, some e) => .returned none (some e)
      | (v, none) => .returned (some v) none

/-- The runs of a retry loop around the send of request `q` with a non-nil client: the
events it adds and the variables `resp`, `err` it leaves. -/
inductive SendRun (q : Request) : List Event → Option Response → Option Error → Prop where
  | first (r : Response) : SendRun q [Event.send q (.ok r)] (some r) none
  | second (e1 : Error) (r : Response) :
      SendRun q
        [Event.send q (.fail e1), Event.sleep (100 * Millisecond), Event.send q (.ok r)]
        (some r) none
  | third (e1 e2 : Error) (r : Response) :
      SendRun q
        [Event.send q (.fail e1), Event.sleep (100 * Millisecond),
         Event.send q (.fail e2), Event.sleep (100 * Millisecond), Event.send q (.ok r)]
        (some r) none
  | exhausted (e1 e2 e3 : Error) :
      SendRun q
        [Event.send q (.fail e1), Event.sleep (100 * Millisecond),
         Event.send q (.fail e2), Event.sleep (100 * Millisecond), Event.send q (.fail e3)]
        none (some e3)

/-- The runs of the send step of `UpdateUser` with a non-nil client. -/
inductive UpdateRun (q : Request) : List Event → Option Response → Option Error → Prop where
  | rejected (e : Error) :
      UpdateRun q [Event.sleep (100 * Millisecond), Event.sleep (100 * Millisecond)]
        none (some e)
  | answered (r : Response) : UpdateRun q [Event.send q (.ok r)] (some r) none
  | failed (e : Error) : UpdateRun q [Event.send q (.fail e)] none (some e)

/-! ## A model of the stream decoder of `encoding/json`

The operations are proved correct for every decoder (`Env.decode`). This section is a
model of the decoder the code really calls, `json.NewDecoder(resp.Body).Decode(&v)`
with `v` of type `User`, used to evaluate the operations on concrete bodies. It
follows the scanner of the library: the value is read up to its end and nothing after
it is looked at; members are matched to the fields `id`, `name`, `age` up to case; a
value of the wrong kind is a type error that does not stop the other members; `null`
stores nothing. Bodies are Lean strings, so invalid UTF-8 is not modelled, and `int`
is taken to be 64 bits wide. -/

def quoteChar : Char := Char.ofNat 34

def backslashChar : Char := Char.ofNat 92

def openBrace : Char := Char.ofNat 123

def closeBrace : Char := Char.ofNat 125

/-- The white space of JSON. -/
def isSpace (c : Char) : Bool :=
  c == ' ' || c == '\t' || c == '\r' || c == '\n'

def skipSpace : List Char → List Char
  | [] => []
  | c :: cs => if isSpace c then skipSpace cs else c :: cs

def isDigit (c : Char) : Bool := decide ('0' ≤ c ∧ c ≤ '9')

/-- The value of a hexadecimal digit. -/
def hexValue (c : Char) : Option Nat :=
  if '0' ≤ c ∧ c ≤ '9' then some (c.toNat - 48)
  else if 'a' ≤ c ∧ c ≤ 'f' then some (c.toNat - 87)
  else if 'A' ≤ c ∧ c ≤ 'F' then some (c.toNat - 55)
  else none

/-- Four hexadecimal digits, as after `\u`. -/
def hex4 : List Char → Option (Nat × List Char)
  | a :: b :: c :: d :: rest =>
    match hexValue a, hexValue b, hexValue c, hexValue d with
    | some x, some y, some z, some w => some (((x * 16 + y) * 16 + z) * 16 + w, rest)
    | _, _, _, _ => none
  | _ => none

/-- The character of an escape `\uXXXX` with value `hi`, given what follows it: a high
surrogate followed by the escape of a low surrogate is one character, any other
surrogate is U+FFFD. -/
def unicodeEscape (hi : Nat) (rest : List Char) : Char × List Char :=
  if 0xD800 ≤ hi ∧ hi < 0xDC00 then
    match rest with
    | b :: u :: rest1 =>
      if b == backslashChar && u == 'u' then
        match hex4 rest1 with
        | some (lo, rest2) =>
          if 0xDC00 ≤ lo ∧ lo < 0xE000 then
            (Char.ofNat (0x10000 + (hi - 0xD800) * 0x400 + (lo - 0xDC00)), rest2)
          else (Char.ofNat 0xFFFD, rest)
        | none => (Char.ofNat 0xFFFD, rest)
      else (Char.ofNat 0xFFFD, rest)
    | _ => (Char.ofNat 0xFFFD, rest)
  else if 0xDC00 ≤ hi ∧ hi < 0xE000 then (Char.ofNat 0xFFFD, rest)
  else (Char.ofNat hi, rest)

/-- One escape sequence, after its backslash. -/
def scanEscape : List Char → Option (Char × List Char)
  | [] => none
  | e :: rest =>
    if e == quoteChar then some (quoteChar, rest)
    else if e == backslashChar then some (backslashChar, rest)
    else if e == '/' then some ('/', rest)
    else if e == 'b' then some (Char.ofNat 8, rest)
    else if e == 'f' then some (Char.ofNat 12, rest)
    else if e == 'n' then some ('\n', rest)
    else if e == 'r' then some ('\r', rest)
    else if e == 't' then some ('\t', rest)
    else if e == 'u' then
      match hex4 rest with
      | some (hi, rest1) => some (unicodeEscape hi rest1)
      | none => none
    else none

/-- The rest of a string literal after its opening quote: the text (collected in
reverse in `acc`) and what follows the closing quote. -/
def scanString : Nat → List Char → List Char → Option (String × List Char)
  | 0, _, _ => none
  | _ + 1, _, [] => none
  | fuel + 1, acc, c :: cs =>
    if c == quoteChar then some (String.mk acc.reverse, cs)
    else if c == backslashChar then
      match scanEscape cs with
      | some (ch, rest) => scanString fuel (ch :: acc) rest
      | none => none
    else if c.toNat < 32 then none
    else scanString fuel (c :: acc) cs

/-- The digits of an exponent, after `e` or `E`. -/
def scanExponent (cs : List Char) : Option (List Char) :=
  let r := match cs with
    | '+' :: r => r
    | '-' :: r => r
    | _ => cs
  if (r.span isDigit).1.isEmpty then none else some (r.span isDigit).2

/-- The value of a list of decimal digits. -/
def digitsValue (ds : List Char) : Nat :=
  ds.foldl (fun n d => n * 10 + (d.toNat - 48)) 0

/-- A number literal at the head of the input: its value when it is an integer literal
(no fraction and no exponent), `none` for another number, and the rest of the input. -/
def scanNumber (cs : List Char) : Option (Option Int × List Char) :=
  let neg := match cs with
    | '-' :: _ => true
    | _ => false
  let cs1 := match cs with
    | '-' :: r => r
    | _ => cs
  match cs1 with
  | [] => none
  | d :: r =>
    if !isDigit d then none
    else
      let ds := if d == '0' then [d] else d :: (r.span isDigit).1
      let cs2 := if d == '0' then r else (r.span isDigit).2
      let whole : Int := if neg then - (digitsValue ds : Int) else (digitsValue ds : Int)
      match cs2 with
      | '.' :: r1 =>
        if (r1.span isDigit).1.isEmpty then none
        else
          match (r1.span isDigit).2 with
          | 'e' :: r2 => (scanExponent r2).map (fun rest => (none, rest))
          | 'E' :: r2 => (scanExponent r2).map (fun rest => (none, rest))
          | rest => some (none, rest)
      | 'e' :: r2 => (scanExponent r2).map (fun rest => (none, rest))
      | 'E' :: r2 => (scanExponent r2).map (fun rest => (none, rest))
      | _ => some (some whole, cs2)

/-- A value of a member of an object, as far as decoding into `User` looks at it. -/
inductive JSONItem where
  | null
  | bool (b : Bool)
  | integer (n : Int)
  | otherNumber
  | string (s : String)
  | composite
deriving DecidableEq, Repr

/-- A complete JSON value: a scalar, an array, or an object with its members in order
(a member that is itself an array or an object is kept as `composite`). -/
inductive JSONValueRead where
  | item (v : JSONItem)
  | array
  | object (members : List (String × JSONItem))
deriving DecidableEq, Repr

def JSONValueRead.toItem : JSONValueRead → JSONItem
  | .item v => v
  | .array => .composite
  | .object _ => .composite

/-- The nesting depth beyond which the scanner of `encoding/json` gives up. -/
def maxNestingDepth : Nat := 10000

mutual

/-- The next JSON value of the input, after white space, and the rest of the input;
`none` for a syntax error or an input that ends early. -/
def readValue : Nat → Nat → List Char → Option (JSONValueRead × List Char)
  | 0, _, _ => none
  | fuel + 1, depth, cs =>
    match skipSpace cs with
    | [] => none
    | 'n' :: 'u' :: 'l' :: 'l' :: rest => some (.item .null, rest)
    | 't' :: 'r' :: 'u' :: 'e' :: rest => some (.item (.bool true), rest)
    | 'f' :: 'a' :: 'l' :: 's' :: 'e' :: rest => some (.item (.bool false), rest)
    | c :: rest =>
      if c == quoteChar then
        match scanString (rest.length + 1) [] rest with
        | some (s, rest1) => some (.item (.string s), rest1)
        | none => none
      else if c == openBrace then
        if depth + 1 > maxNestingDepth then none
        else
          match skipSpace rest with
          | [] => none
          | c1 :: rest1 =>
            if c1 == closeBrace then some (.object [], rest1)
            else
              match readMembers fuel (depth + 1) (c1 :: rest1) with
              | some (ms, rest2) => some (.object ms, rest2)
              | none => none
      else if c == '[' then
        if depth + 1 > maxNestingDepth then none
        else
          match skipSpace rest with
          | [] => none
          | c1 :: rest1 =>
            if c1 == ']' then some (.array, rest1)
            else
              match readElements fuel (depth + 1) (c1 :: rest1) with
              | some rest2 => some (.array, rest2)
              | none => none
      else if c == '-' || isDigit c then
        match scanNumber (c :: rest) with
        | some (some n, rest1) => some (.item (.integer n), rest1)
        | some (none, rest1) => some (.item .otherNumber, rest1)
        | none => none
      else none

/-- The members of an object from its first key to the closing brace. -/
def readMembers : Nat → Nat → List Char → Option (List (String × JSONItem) × List Char)
  | 0, _, _ => none
  | fuel + 1, depth, cs =>
    match skipSpace cs with
    | [] => none
    | c :: rest =>
      if c == quoteChar then
        match scanString (rest.length + 1) [] rest with
        | none => none
        | some (key, rest1) =>
          match skipSpace rest1 with
          | ':' :: rest2 =>
            match readValue fuel depth rest2 with
            | none => none
            | some (v, rest3) =>
              match skipSpace rest3 with
              | [] => none
              | c3 :: rest4 =>
                if c3 == closeBrace then some ([(key, v.toItem)], rest4)
                else if c3 == ',' then
                  match readMembers fuel depth rest4 with
                  | some (ms, rest5) => some ((key, v.toItem) :: ms, rest5)
                  | none => none
                else none
          | _ => none
      else none

/-- The elements of an array from its first element to the closing bracket. -/
def readElements : Nat → Nat → List Char → Option (List Char)
  | 0, _, _ => none
  | fuel + 1, depth, cs =>
    match readValue fuel depth cs with
    | none => none
    | some (_, rest) =>
      match skipSpace rest with
      | [] => none
      | c :: rest1 =>
        if c == ']' then some rest1
        else if c == ',' then readElements fuel depth rest1
        else none

end

/-- ASCII lower case of a key, for the case-insensitive match of member names. -/
def lowerKey (s : String) : String := String.mk (s.data.map Char.toLower)

/-- Store one member into a `User`: a member named as a field (exactly or up to case)
sets the field when its value has the kind of the field, leaves it alone for `null`,
and is a type error otherwise; any other member is skipped. The result is the new
value and whether the member was a type error. -/
def storeMember (v : User) (m : String × JSONItem) : User × Bool :=
  if lowerKey m.1 = "id" then
    match m.2 with
    | .string s => ({ v with ID := s }, false)
    | .null => (v, false)
    | _ => (v, true)
  else if lowerKey m.1 = "name" then
    match m.2 with
    | .string s => ({ v with Name := s }, false)
    | .null => (v, false)
    | _ => (v, true)
  else if lowerKey m.1 = "age" then
    match m.2 with
    | .integer n =>
      if -9223372036854775808 ≤ n ∧ n ≤ 9223372036854775807 then ({ v with Age := n }, false)
      else (v, true)
    | .null => (v, false)
    | _ => (v, true)
  else (v, false)

/-- Store the members of an object in order; a type error does not stop the others. -/
def storeMembers : User → List (String × JSONItem) → User × Bool
  | v, [] => (v, false)
  | v, m :: ms =>
    ((storeMembers (storeMember v m).1 ms).1,
      (storeMember v m).2 || (storeMembers (storeMember v m).1 ms).2)

/-- The call `json.NewDecoder(body).Decode(&v)` on a fresh decoder: it reads the first
JSON value of the body and does not look at what follows it; `null` leaves `v` as it
is; an object is stored member by member; any other value is a type error. The texts
of the errors stand for those of the library. -/
def Decode (body : String) (v : User) : User × Option Error :=
  match skipSpace body.data with
  | [] => (v, some ⟨"EOF"⟩)
  | cs =>
    match readValue (cs.length + 1) 0 cs with
    | none => (v, some ⟨"json: syntax error or unexpected end of input"⟩)
    | some (.item .null, _) => (v, none)
    | some (.object ms, _) =>
      if (storeMembers v ms).2 then
        ((storeMembers v ms).1, some ⟨"json: cannot unmarshal value into Go struct field"⟩)
      else ((storeMembers v ms).1, none)
    | some (_, _) => (v, some ⟨"json: cannot unmarshal value into Go value of type User"⟩)

/-- Whether the whole body is one JSON value, with white space around it at most. -/
def isValidJSON (body : String) : Bool :=
  match readValue (body.data.length + 1) 0 body.data with
  | some (_, rest) => (skipSpace rest).isEmpty
  | none => false

/-! ## What the transport answers -/

/-- The response the transport gives to the first of at most `k` successive sends of
`q`, from network state `net`, that it does not fail; `none` when it fails them all. -/
def firstAnswer {σ : Type} (t : Transport σ) (q : Request) : Nat → σ → Option Response
  | 0, _ => none
  | k + 1, net =>
    match t q net with
    | (.ok resp, _) => some resp
    | (.fail _, net1) => firstAnswer t q k net1

/-- The request a call hands to the client, for base URL `b` (lines 45, 76 and 87,
108). -/
def Call.request (b : String) : Call → Request
  | .create user =>
    { Method := "POST", URL := b ++ "/users",
      Header := [("Content-Type", "application/json")], Body := some (Marshal user).1 }
  | .update id user =>
    { Method := "PUT", URL := b ++ "/users/" ++ id,
      Header := [("Content-Type", "application/json")], Body := some (Marshal user).1 }
  | .get id =>
    { Method := "GET", URL := b ++ "/users/" ++ id, Header := [], Body := none }

/-- How many times a call is ready to hand its request to the client: the bound of the
loop around `Post` and `Get`, and the one `Do` of `UpdateUser` (line 88). -/
def Call.sendAttempts : Call → Nat
  | .create _ => 3
  | .update _ _ => 1
  | .get _ => 3

/-- The error of building the request before any send: that of `http.NewRequest` in
`UpdateUser` (line 76); the other operations build nothing themselves. -/
def Call.requestError (env : Env) (b : String) : Call → Option Error
  | .create _ => none
  | .update id _ => env.newRequestErr MethodPut (b ++ "/users/" ++ id)
  | .get _ => none

/-! ## Test doubles -/

/-- A transport that answers from a script, one entry for each send attempt, and fails
once the script is used up. -/
def scripted : Transport (List SendResult)
  | _, [] => (.fail ⟨"connection refused"⟩, [])
  | _, r :: rest => (r, rest)

def alice : User := ⟨"123", "Alice", 30⟩

def aliceBody : String := "\x7b\"id\":\"123\",\"name\":\"Alice\",\"age\":30\x7d\n"

/-- A decoder that knows one document and rejects every other body. -/
def sampleDecode (body : String) (v : User) : User × Option Error :=
  if body = aliceBody then (alice, none)
  else (v, some ⟨"invalid character"⟩)

def sampleEnv : Env := { newRequestErr := fun _ _ => none, decode := sampleDecode }

/-- A client made by `NewClient` in front of a scripted network, before any call. -/
def start (script : List SendResult) : State (List SendResult) :=
  { u := NewClient scripted "http://localhost:8080", net := script, trace := [] }

def refused : SendResult := .fail ⟨"connection refused"⟩

def reset : SendResult := .fail ⟨"connection reset by peer"⟩

def timedOut : SendResult := .fail ⟨"i/o timeout"⟩

def okAlice : Response := ⟨200, "200 OK", aliceBody⟩

def createdAlice : Response := ⟨201, "201 Created", aliceBody⟩

def createdGarbage : Response := ⟨201, "201 Created", "\x7binvalid json"⟩

def notFound : Response := ⟨404, "404 Not Found", ""⟩

def getAlice : Request := ⟨"GET", "http://localhost:8080/users/123", [], none⟩

def postAlice : Request :=
  ⟨"POST", "http://localhost:8080/users", [("Content-Type", "application/json")],
    some (JSONDoc.object
      [("id", .str "123"), ("name", .str "Alice"), ("age", .num 30)])⟩

/-- The library as the code uses it: the stream decoder, and a `http.NewRequest` that
accepts the URLs of the examples. -/
def goEnv : Env := { newRequestErr := fun _ _ => none, decode := Decode }

def garbageBody : String := "\x7binvalid json"

/-- A complete `User` document followed by invalid text. -/
def tailBody : String :=
  "\x7b\"id\":\"123\",\"name\":\"Alice\",\"age\":30\x7d\x7binvalid json"

def badRequest : Response := ⟨400, "400 Bad Request", ""⟩

def okGarbage : Response := ⟨200, "200 OK", garbageBody⟩

def okTail : Response := ⟨200, "200 OK", tailBody⟩

def okNull : Response := ⟨200, "200 OK", "null"⟩

/-! ## Lemmas -/


theorem newEvents_append {σ : Type} (st st1 : State σ) (evs : List Event)
    (h : st1.trace = st.trace ++ evs) : newEvents st st1 = evs := by
  simp [newEvents, h]

theorem retryLoop_fuel {σ α : Type} (maxRetries : Nat)
    (action : State σ → Outcome α × State σ) (fuel : Nat) :
    ∀ (attempt : Nat) (val : Option α) (err : Option Error) (st : State σ),
      maxRetries + 1 - attempt ≤ fuel →
      retryLoop maxRetries action (fuel + 1) attempt val err st =
        retryLoop maxRetries action fuel attempt val err st := by
  induction fuel with
  | zero =>
    intro attempt val err st h
    have : ¬ attempt ≤ maxRetries := by omega
    simp [retryLoop, this]
  | succ n ih =>
    intro attempt val err st h
    rw [retryLoop]
    conv => rhs; rw [retryLoop]
    by_cases ha : attempt ≤ maxRetries
    · simp only [ha, if_true]
      rcases hact : action st with ⟨o, st1⟩
      cases o with
      | panicked => rfl
      | returned v e =>
        cases e with
        | none => rfl
        | some e => exact ih _ _ _ _ (by omega)
    · simp [ha]

/-- The send loop of `CreateUser` and `GetUser` with a non-nil client. -/
theorem sendLoop_run {σ : Type} (t : Transport σ) (mk : userClient σ → Request)
    (st : State σ) (hc : st.u.client = some t) :
    ∃ evs resp err st1,
      retryLoop 3 (fun s => Client.Do s.u.client (mk s.u) s) 3 1 none none st
        = (.returned resp err, st1) ∧
      st1.u = st.u ∧ st1.trace = st.trace ++ evs ∧ SendRun (mk st.u) evs resp err := by
  rcases h1 : t (mk st.u) st.net with ⟨r1, n1⟩
  cases r1 with
  | ok r =>
    refine ⟨_, _, _, ⟨st.u, n1, st.trace ++ _⟩, ?_, rfl, rfl, SendRun.first r⟩
    simp [retryLoop, Client.Do, hc, h1]
  | fail e1 =>
    rcases h2 : t (mk st.u) n1 with ⟨r2, n2⟩
    cases r2 with
    | ok r =>
      refine ⟨_, _, _, ⟨st.u, n2, st.trace ++ _⟩, ?_, rfl, rfl, SendRun.second e1 r⟩
      simp [retryLoop, Client.Do, hc, h1, h2, Sleep]
    | fail e2 =>
      rcases h3 : t (mk st.u) n2 with ⟨r3, n3⟩
      cases r3 with
      | ok r =>
        refine ⟨_, _, _, ⟨st.u, n3, st.trace ++ _⟩, ?_, rfl, rfl, SendRun.third e1 e2 r⟩
        simp [retryLoop, Client.Do, hc, h1, h2, h3, Sleep]
      | fail e3 =>
        refine ⟨_, _, _, ⟨st.u, n3, st.trace ++ _⟩, ?_, rfl, rfl,
          SendRun.exhausted e1 e2 e3⟩
        simp [retryLoop, Client.Do, hc, h1, h2, h3, Sleep]

theorem marshal_err (user : Option User) : Marshal user = ((Marshal user).1, none) := by
  cases user <;> rfl

theorem createUser_of_loop {σ : Type} (env : Env) (user : Option User) (st st1 : State σ)
    (resp : Option Response) (err : Option Error)
    (h : retryLoop 3
        (fun s => Client.Post s.u.client (s.u.baseURL ++ "/users") "application/json"
          (Marshal user).1 s) 3 1 none none st = (.returned resp err, st1)) :
    CreateUser env user st = (respond env StatusCreated resp err, st1) := by
  unfold CreateUser
  rw [marshal_err user]
  simp only [h]
  cases err with
  | some e => simp [respond]
  | none =>
    cases resp with
    | none => simp [respond]
    | some r =>
      simp only [respond]
      split
      · rfl
      · rcases hd : env.decode r.Body User.zero with ⟨v, e⟩
        cases e <;> rfl

theorem getUser_of_loop {σ : Type} (env : Env) (id : String) (st st1 : State σ)
    (resp : Option Response) (err : Option Error)
    (h : retryLoop 3 (fun s => Client.Get s.u.client (s.u.baseURL ++ "/users/" ++ id) s)
        3 1 none none st = (.returned resp err, st1)) :
    GetUser env id st = (respond env StatusOK resp err, st1) := by
  unfold GetUser
  simp only [h]
  cases err with
  | some e => simp [respond]
  | none =>
    cases resp with
    | none => simp [respond]
    | some r =>
      simp only [respond]
      split
      · rfl
      · rcases hd : env.decode r.Body User.zero with ⟨v, e⟩
        cases e <;> rfl

/-- The loop of `UpdateUser` around `http.NewRequest`: the same check three times. -/
theorem newRequestLoop_eq {σ : Type} (env : Env) (id : String) (body : JSONDoc)
    (st : State σ) :
    retryLoop 3
        (fun s =>
          match NewRequest env MethodPut (s.u.baseURL ++ "/users/" ++ id) body with
          | (req, err) => (Outcome.returned req err, s))
        3 1 none none st =
      match env.newRequestErr MethodPut (st.u.baseURL ++ "/users/" ++ id) with
      | some e =>
        (.returned none (some e),
          { st with trace := st.trace ++
              [Event.sleep (100 * Millisecond), Event.sleep (100 * Millisecond)] })
      | none =>
        (.returned
          (some { Method := MethodPut, URL := st.u.baseURL ++ "/users/" ++ id,
                  Header := [], Body := some body }) none, st) := by
  cases h : env.newRequestErr MethodPut (st.u.baseURL ++ "/users/" ++ id) with
  | none => simp [retryLoop, NewRequest, h]
  | some e => simp [retryLoop, NewRequest, h, Sleep]

theorem updateUser_run {σ : Type} (env : Env) (id : String) (user : Option User)
    (t : Transport σ) (st : State σ) (hc : st.u.client = some t) :
    ∃ evs resp err,
      UpdateRun
        { Method := "PUT", URL := st.u.baseURL ++ "/users/" ++ id,
          Header := [("Content-Type", "application/json")], Body := some (Marshal user).1 }
        evs resp err ∧
      (UpdateUser env id user st).2.u = st.u ∧
      (UpdateUser env id user st).2.trace = st.trace ++ evs ∧
      (UpdateUser env id user st).1 = respond env StatusOK resp err := by
  unfold UpdateUser
  rw [marshal_err user]
  simp only [newRequestLoop_eq]
  cases h : env.newRequestErr MethodPut (st.u.baseURL ++ "/users/" ++ id) with
  | some e => exact ⟨_, none, some e, UpdateRun.rejected e, rfl, rfl, rfl⟩
  | none =>
    simp only [Client.Do, hc, Request.HeaderSet, MethodPut, List.filter_nil, List.nil_append]
    rcases h1 : t (Request.mk "PUT" (st.u.baseURL ++ "/users/" ++ id)
        [("Content-Type", "application/json")] (some (Marshal user).1)) st.net with ⟨r1, n1⟩
    cases r1 with
    | fail e => exact ⟨_, none, some e, UpdateRun.failed e, rfl, rfl, rfl⟩
    | ok r =>
      refine ⟨_, some r, none, UpdateRun.answered r, ?_, ?_, ?_⟩
      · simp only []
        split
        · rfl
        · rcases hd : env.decode r.Body User.zero with ⟨v, e⟩
          cases e <;> rfl
      · simp only []
        split
        · rfl
        · rcases hd : env.decode r.Body User.zero with ⟨v, e⟩
          cases e <;> rfl
      · simp only [respond]
        split
        · rfl
        · rcases hd : env.decode r.Body User.zero with ⟨v, e⟩
          cases e <;> rfl

theorem createUser_run {σ : Type} (env : Env) (user : Option User) (t : Transport σ)
    (st : State σ) (hc : st.u.client = some t) :
    ∃ evs resp err,
      SendRun
        { Method := "POST", URL := st.u.baseURL ++ "/users",
          Header := [("Content-Type", "application/json")], Body := some (Marshal user).1 }
        evs resp err ∧
      (CreateUser env user st).2.u = st.u ∧
      (CreateUser env user st).2.trace = st.trace ++ evs ∧
      (CreateUser env user st).1 = respond env StatusCreated resp err := by
  obtain ⟨evs, resp, err, st1, hloop, hu, htr, hrun⟩ := sendLoop_run t
    (fun u => { Method := "POST", URL := u.baseURL ++ "/users",
                Header := [("Content-Type", "application/json")],
                Body := some (Marshal user).1 }) st hc
  have h := createUser_of_loop env user st st1 resp err hloop
  exact ⟨evs, resp, err, hrun, by rw [h]; exact hu, by rw [h]; exact htr, by rw [h]⟩

theorem getUser_run {σ : Type} (env : Env) (id : String) (t : Transport σ)
    (st : State σ) (hc : st.u.client = some t) :
    ∃ evs resp err,
      SendRun
        { Method := "GET", URL := st.u.baseURL ++ "/users/" ++ id, Header := [],
          Body := none }
        evs resp err ∧
      (GetUser env id st).2.u = st.u ∧
      (GetUser env id st).2.trace = st.trace ++ evs ∧
      (GetUser env id st).1 = respond env StatusOK resp err := by
  obtain ⟨evs, resp, err, st1, hloop, hu, htr, hrun⟩ := sendLoop_run t
    (fun u => { Method := "GET", URL := u.baseURL ++ "/users/" ++ id, Header := [],
                Body := none }) st hc
  have h := getUser_of_loop env id st st1 resp err hloop
  exact ⟨evs, resp, err, hrun, by rw [h]; exact hu, by rw [h]; exact htr, by rw [h]⟩

/-! ### Frame lemmas (any client, nil included) -/

theorem clientDo_frame {σ : Type} (c : Option (Transport σ)) (req : Request) (st : State σ) :
    (Client.Do c req st).2.u = st.u := by
  cases c with
  | none => rfl
  | some t =>
    rcases h : t req st.net with ⟨r, n⟩
    cases r <;> simp [Client.Do, h]

theorem retryLoop_frame {σ α : Type} (maxRetries : Nat)
    (action : State σ → Outcome α × State σ) (hact : ∀ s, (action s).2.u = s.u)
    (fuel : Nat) :
    ∀ (attempt : Nat) (val : Option α) (err : Option Error) (st : State σ),
      (retryLoop maxRetries action fuel attempt val err st).2.u = st.u := by
  induction fuel with
  | zero => intro attempt val err st; rfl
  | succ n ih =>
    intro attempt val err st
    rw [retryLoop]
    by_cases ha : attempt ≤ maxRetries
    · simp only [ha, if_true]
      have h1 := hact st
      rcases hr : action st with ⟨o, st1⟩
      rw [hr] at h1
      cases o with
      | panicked => exact h1
      | returned v e =>
        cases e with
        | none => exact h1
        | some e =>
          simp only []
          rw [ih]
          split
          · exact h1
          · exact h1
    · simp [ha]

theorem createUser_frame {σ : Type} (env : Env) (user : Option User) (st : State σ) :
    (CreateUser env user st).2.u = st.u := by
  have hl := retryLoop_frame 3
    (fun s : State σ => Client.Post s.u.client (s.u.baseURL ++ "/users") "application/json"
      (Marshal user).1 s)
    (fun s => clientDo_frame _ _ s) 3 1 none none st
  unfold CreateUser
  rw [marshal_err user]
  simp only []
  split
  · simp_all
  · simp_all
  · simp_all
  · rename_i h
    rw [h] at hl
    split
    · exact hl
    · split <;> exact hl

theorem getUser_frame {σ : Type} (env : Env) (id : String) (st : State σ) :
    (GetUser env id st).2.u = st.u := by
  have hl := retryLoop_frame 3
    (fun s : State σ => Client.Get s.u.client (s.u.baseURL ++ "/users/" ++ id) s)
    (fun s => clientDo_frame _ _ s) 3 1 none none st
  unfold GetUser
  simp only []
  split
  · simp_all
  · simp_all
  · simp_all
  · rename_i h
    rw [h] at hl
    split
    · exact hl
    · split <;> exact hl

theorem updateUser_frame {σ : Type} (env : Env) (id : String) (user : Option User)
    (st : State σ) : (UpdateUser env id user st).2.u = st.u := by
  unfold UpdateUser
  rw [marshal_err user]
  simp only [newRequestLoop_eq]
  cases h : env.newRequestErr MethodPut (st.u.baseURL ++ "/users/" ++ id) with
  | some e => rfl
  | none =>
    simp only []
    have hd := clientDo_frame st.u.client
      (Request.HeaderSet ⟨MethodPut, st.u.baseURL ++ "/users/" ++ id, [],
        some (Marshal user).1⟩ "Content-Type" "application/json") st
    split
    · simp_all
    · simp_all
    · simp_all
    · rename_i h
      rw [h] at hd
      split
      · exact hd
      · split <;> exact hd

/-! ### Every call with a non-nil client -/

theorem call_run {σ : Type} (env : Env) (call : Call) (t : Transport σ) (st : State σ)
    (hc : st.u.client = some t) :
    ∃ q evs resp err,
      (SendRun q evs resp err ∨ UpdateRun q evs resp err) ∧
      newEvents st (call.run env st).2 = evs ∧
      (call.run env st).1 = respond env call.expectedStatus resp err := by
  cases call with
  | create user =>
    obtain ⟨evs, resp, err, hrun, -, htr, hout⟩ := createUser_run env user t st hc
    exact ⟨_, evs, resp, err, Or.inl hrun, newEvents_append _ _ _ htr, hout⟩
  | update id user =>
    obtain ⟨evs, resp, err, hrun, -, htr, hout⟩ := updateUser_run env id user t st hc
    exact ⟨_, evs, resp, err, Or.inr hrun, newEvents_append _ _ _ htr, hout⟩
  | get id =>
    obtain ⟨evs, resp, err, hrun, -, htr, hout⟩ := getUser_run env id t st hc
    exact ⟨_, evs, resp, err, Or.inl hrun, newEvents_append _ _ _ htr, hout⟩

theorem run_first_ok {q : Request} {evs : List Event} {resp : Option Response}
    {err : Option Error} (h : SendRun q evs resp err ∨ UpdateRun q evs resp err)
    (q1 : Request) (r : Response) (hhead : (sends evs).head? = some (q1, SendResult.ok r)) :
    (sends evs).length = 1 := by
  rcases h with h | h <;> cases h <;> simp_all [sends]

theorem retryLoop_enough_fuel {σ α : Type} (maxRetries : Nat)
    (action : State σ → Outcome α × State σ) (val : Option α) (err : Option Error)
    (st : State σ) (k : Nat) :
    retryLoop maxRetries action (maxRetries + k) 1 val err st =
      retryLoop maxRetries action maxRetries 1 val err st := by
  induction k with
  | zero => rfl
  | succ n ih =>
    rw [← ih]
    exact retryLoop_fuel maxRetries action (maxRetries + n) 1 val err st (by omega)

theorem respond_err (env : Env) (expected : Int) (resp : Option Response) (e : Error) :
    respond env expected resp (some e) = Outcome.returned none (some e) := by
  cases resp <;> rfl

theorem sendRun_policy {q : Request} {evs : List Event} {resp : Option Response}
    {err : Option Error} (h : SendRun q evs resp err) (out : Outcome User)
    (hout : ∀ e, err = some e → out = Outcome.returned none (some e)) :
    (sends evs).length ≤ 3 ∧
    (∀ l1 q1 r l2, sends evs = l1 ++ (q1, SendResult.ok r) :: l2 → l2 = []) ∧
    (∀ q1 q2 q3 e1 e2 e3,
      sends evs = [(q1, SendResult.fail e1), (q2, SendResult.fail e2),
        (q3, SendResult.fail e3)] → out = Outcome.returned none (some e3)) := by
  cases h with
  | first r =>
    refine ⟨by simp [sends], ?_, by simp [sends]⟩
    intro l1 q1 r1 l2 hl
    rcases l1 with _ | ⟨a, _ | ⟨b, l⟩⟩ <;> simp_all [sends]
  | second e1 r =>
    refine ⟨by simp [sends], ?_, by simp [sends]⟩
    intro l1 q1 r1 l2 hl
    rcases l1 with _ | ⟨a, _ | ⟨b, _ | ⟨c, l⟩⟩⟩ <;> simp_all [sends]
  | third e1 e2 r =>
    refine ⟨by simp [sends], ?_, by simp [sends]⟩
    intro l1 q1 r1 l2 hl
    rcases l1 with _ | ⟨a, _ | ⟨b, _ | ⟨c, _ | ⟨d, l⟩⟩⟩⟩ <;> simp_all [sends]
  | exhausted e1 e2 e3 =>
    refine ⟨by simp [sends], ?_, ?_⟩
    · intro l1 q1 r1 l2 hl
      rcases l1 with _ | ⟨a, _ | ⟨b, _ | ⟨c, _ | ⟨d, l⟩⟩⟩⟩ <;> simp_all [sends]
    · intro q1 q2 q3 a1 a2 a3 hs
      simp [sends] at hs
      rw [hout e3 rfl, hs.2.2.2]

theorem sendRun_pauses {q : Request} {evs : List Event} {resp : Option Response}
    {err : Option Error} (h : SendRun q evs resp err) :
    (sleeps evs).length = failedThenRetried (sends evs) ∧
    (sleeps evs).length = min (failures (sends evs)) 2 ∧
    (∀ d ∈ sleeps evs, d = 100 * Millisecond) ∧
    (∀ d, evs.getLast? ≠ some (Event.sleep d)) ∧
    (sleeps evs).sum ≤ 200 * Millisecond := by
  refine ⟨?_, ?_, ?_, ?_, ?_⟩
  · cases h <;> simp [sends, sleeps, failedThenRetried]
  · cases h <;> simp [sends, sleeps, failures]
  · cases h <;> simp [sleeps]
  · intro d hd
    cases h <;>
      simp only [List.getLast?_cons_cons, List.getLast?_singleton] at hd <;> cases hd
  · cases h
    · rw [sleeps, sleeps, List.sum_nil]
      exact Nat.zero_le _
    · rw [sleeps, sleeps, sleeps, sleeps, List.sum_cons, List.sum_nil]
      omega
    · rw [sleeps, sleeps, sleeps, sleeps, sleeps, sleeps, List.sum_cons, List.sum_cons,
        List.sum_nil]
      omega
    · rw [sleeps, sleeps, sleeps, sleeps, sleeps, sleeps, List.sum_cons, List.sum_cons,
        List.sum_nil]
      omega

theorem sendRun_requests {q : Request} {evs : List Event} {resp : Option Response}
    {err : Option Error} (h : SendRun q evs resp err) :
    ∀ p ∈ sends evs, p.1 = q := by
  cases h <;> simp [sends]

theorem updateRun_requests {q : Request} {evs : List Event} {resp : Option Response}
    {err : Option Error} (h : UpdateRun q evs resp err) :
    ∀ p ∈ sends evs, p.1 = q := by
  cases h <;> simp [sends]

theorem updateUser_sends_at_most_once {σ : Type} (env : Env) (id : String)
    (user : Option User) (t : Transport σ) (st : State σ) (hc : st.u.client = some t) :
    (sends (newEvents st (UpdateUser env id user st).2)).length ≤ 1 := by
  obtain ⟨evs, resp, err, hrun, -, htr, -⟩ := updateUser_run env id user t st hc
  rw [newEvents_append _ _ _ htr]
  cases hrun <;> simp [sends]

/-! ### The outcome in terms of what the transport answers -/

/-- The send loop of `CreateUser` and `GetUser` leaves in `resp` the first answer of
the transport to three sends, and a nil `err` exactly when there is one. -/
theorem sendLoop_answer {σ : Type} (t : Transport σ) (mk : userClient σ → Request)
    (st : State σ) (hc : st.u.client = some t) :
    ∃ err st1,
      retryLoop 3 (fun s => Client.Do s.u.client (mk s.u) s) 3 1 none none st
        = (.returned (firstAnswer t (mk st.u) 3 st.net) err, st1) ∧
      (err = none ↔ (firstAnswer t (mk st.u) 3 st.net).isSome) := by
  rcases h1 : t (mk st.u) st.net with ⟨r1, n1⟩
  cases r1 with
  | ok r => simp [retryLoop, Client.Do, hc, h1, firstAnswer]
  | fail e1 =>
    rcases h2 : t (mk st.u) n1 with ⟨r2, n2⟩
    cases r2 with
    | ok r => simp [retryLoop, Client.Do, hc, h1, h2, Sleep, firstAnswer]
    | fail e2 =>
      rcases h3 : t (mk st.u) n2 with ⟨r3, n3⟩
      cases r3 with
      | ok r => simp [retryLoop, Client.Do, hc, h1, h2, h3, Sleep, firstAnswer]
      | fail e3 => simp [retryLoop, Client.Do, hc, h1, h2, h3, Sleep, firstAnswer]

/-- Every call with a non-nil client ends as `respond` says, on the first answer of
the transport to the sends the call is ready to make; `err` is nil exactly when the
request could be built and the transport gave an answer. -/
theorem call_answer {σ : Type} (env : Env) (call : Call) (t : Transport σ) (st : State σ)
    (hc : st.u.client = some t) :
    ∃ err,
      (err = none ↔ call.requestError env st.u.baseURL = none ∧
        (firstAnswer t (call.request st.u.baseURL) call.sendAttempts st.net).isSome) ∧
      (call.run env st).1 =
        respond env call.expectedStatus
          (firstAnswer t (call.request st.u.baseURL) call.sendAttempts st.net) err := by
  cases call with
  | create user =>
    obtain ⟨err, st1, hloop, herr⟩ := sendLoop_answer t
      (fun u => { Method := "POST", URL := u.baseURL ++ "/users",
                  Header := [("Content-Type", "application/json")],
                  Body := some (Marshal user).1 }) st hc
    refine ⟨err, ?_, ?_⟩
    · simpa [Call.requestError, Call.request, Call.sendAttempts] using herr
    · have h := createUser_of_loop env user st st1 _ err hloop
      simp only [Call.run, Call.request, Call.sendAttempts, Call.expectedStatus]
      rw [h]
  | get id =>
    obtain ⟨err, st1, hloop, herr⟩ := sendLoop_answer t
      (fun u => { Method := "GET", URL := u.baseURL ++ "/users/" ++ id, Header := [],
                  Body := none }) st hc
    refine ⟨err, ?_, ?_⟩
    · simpa [Call.requestError, Call.request, Call.sendAttempts] using herr
    · have h := getUser_of_loop env id st st1 _ err hloop
      simp only [Call.run, Call.request, Call.sendAttempts, Call.expectedStatus]
      rw [h]
  | update id user =>
    simp only [Call.run, Call.request, Call.sendAttempts, Call.expectedStatus,
      Call.requestError]
    unfold UpdateUser
    rw [marshal_err user]
    simp only [newRequestLoop_eq]
    cases h : env.newRequestErr MethodPut (st.u.baseURL ++ "/users/" ++ id) with
    | some e => exact ⟨some e, by simp, by simp [respond]⟩
    | none =>
      simp only [Client.Do, hc, Request.HeaderSet, MethodPut, List.filter_nil,
        List.nil_append]
      rcases h1 : t (Request.mk "PUT" (st.u.baseURL ++ "/users/" ++ id)
          [("Content-Type", "application/json")] (some (Marshal user).1)) st.net
        with ⟨r1, n1⟩
      cases r1 with
      | fail e => exact ⟨some e, by simp [firstAnswer, h1], by simp [firstAnswer, h1, respond]⟩
      | ok r =>
        refine ⟨none, by simp [firstAnswer, h1], ?_⟩
        simp only [firstAnswer, h1, respond]
        split
        · rfl
        · rcases hd : env.decode r.Body User.zero with ⟨v, e⟩
          cases e <;> rfl

/-- Where no complete JSON value starts the body, the stream decoder reports an error. -/
theorem decode_unreadable (body : String) (v : User)
    (h : readValue ((skipSpace body.data).length + 1) 0 (skipSpace body.data) = none) :
    ∃ e, Decode body v = (v, some e) := by
  unfold Decode
  split
  · exact ⟨_, rfl⟩
  · rename_i cs hcs
    rw [h]
    exact ⟨_, rfl⟩

/-! ## The claims -/

/-- Claim C1, evaluated on the code: with a transport whose first send fails and whose
second send would return status 200 with a decodable body, `UpdateUser` makes a single
send attempt and returns the error of that attempt and no `User`, while `GetUser` on
the same transport sends twice and returns the decoded `User`. The retry loop of
`UpdateUser` is around the construction of the request, not around the send. -/
theorem updateUser_send_not_retried :
    (UpdateUser sampleEnv "123" (some alice) (start [refused, SendResult.ok okAlice])).1 =
      Outcome.returned none (some ⟨"connection refused"⟩) ∧
    sends (UpdateUser sampleEnv "123" (some alice)
        (start [refused, SendResult.ok okAlice])).2.trace =
      [(⟨"PUT", "http://localhost:8080/users/123", [("Content-Type", "application/json")],
          some (Marshal (some alice)).1⟩, refused)] ∧
    (GetUser sampleEnv "123" (start [refused, SendResult.ok okAlice])).1 =
      Outcome.returned (some alice) none ∧
    (sends (GetUser sampleEnv "123"
        (start [refused, SendResult.ok okAlice])).2.trace).length = 2 := by
  decide

/-- Claim C2: for `CreateUser` and `GetUser` with a non-nil client over any transport,
the call makes at most 3 send attempts; no send attempt follows one that returned a
response; and when the attempts are three failures, the call returns no `User` and
exactly the error of the third attempt. -/
theorem send_attempts_bounded {σ : Type} (env : Env) (t : Transport σ) (st : State σ)
    (user : Option User) (id : String) (hc : st.u.client = some t) :
    ((sends (newEvents st (CreateUser env user st).2)).length ≤ 3 ∧
      (∀ l1 q r l2, sends (newEvents st (CreateUser env user st).2) =
          l1 ++ (q, SendResult.ok r) :: l2 → l2 = []) ∧
      (∀ q1 q2 q3 e1 e2 e3, sends (newEvents st (CreateUser env user st).2) =
          [(q1, SendResult.fail e1), (q2, SendResult.fail e2), (q3, SendResult.fail e3)] →
        (CreateUser env user st).1 = Outcome.returned none (some e3))) ∧
    ((sends (newEvents st (GetUser env id st).2)).length ≤ 3 ∧
      (∀ l1 q r l2, sends (newEvents st (GetUser env id st).2) =
          l1 ++ (q, SendResult.ok r) :: l2 → l2 = []) ∧
      (∀ q1 q2 q3 e1 e2 e3, sends (newEvents st (GetUser env id st).2) =
          [(q1, SendResult.fail e1), (q2, SendResult.fail e2), (q3, SendResult.fail e3)] →
        (GetUser env id st).1 = Outcome.returned none (some e3))) := by
  constructor
  · obtain ⟨evs, resp, err, hrun, -, htr, hout⟩ := createUser_run env user t st hc
    rw [newEvents_append _ _ _ htr]
    exact sendRun_policy hrun _ (fun e he => by rw [hout, he, respond_err])
  · obtain ⟨evs, resp, err, hrun, -, htr, hout⟩ := getUser_run env id t st hc
    rw [newEvents_append _ _ _ htr]
    exact sendRun_policy hrun _ (fun e he => by rw [hout, he, respond_err])

/-- Three failed attempts of `CreateUser`: the error of the third one is returned. -/
theorem send_attempts_bounded_witness :
    (start [refused, reset, timedOut]).u.client = some scripted ∧
    (CreateUser sampleEnv (some alice) (start [refused, reset, timedOut])).1 =
      Outcome.returned none (some ⟨"i/o timeout"⟩) :=
  ⟨rfl, (send_attempts_bounded sampleEnv scripted (start [refused, reset, timedOut])
    (some alice) "123" rfl).1.2.2 postAlice postAlice postAlice
    ⟨"connection refused"⟩ ⟨"connection reset by peer"⟩ ⟨"i/o timeout"⟩ (by decide)⟩

/-- Claim C3: for each operation with a non-nil client whose request could be built,
when the transport answers the request, on the first send or on a retry the operation
makes, with a response whose status code differs from the expected code of the
operation (201 for `CreateUser`, 200 for `UpdateUser` and `GetUser`), the call returns
a nil `User` and the error whose message is `unexpected status: ` followed by the
status line of the response, whatever its body and whatever the decoder. -/
theorem unexpected_status_error {σ : Type} (env : Env) (call : Call) (t : Transport σ)
    (st : State σ) (resp : Response)
    (hc : st.u.client = some t)
    (hreq : call.requestError env st.u.baseURL = none)
    (hans : firstAnswer t (call.request st.u.baseURL) call.sendAttempts st.net = some resp)
    (hne : resp.StatusCode ≠ call.expectedStatus) :
    (call.run env st).1 =
      Outcome.returned none (some ⟨"unexpected status: " ++ resp.Status⟩) := by
  obtain ⟨err, herr, hout⟩ := call_answer env call t st hc
  have he : err = none := herr.mpr ⟨hreq, by simp [hans]⟩
  rw [hout, hans, he]
  simp [respond, hne, Errorf]

/-- The scenarios of `TestCreateUser_UnexpectedStatus`, `TestUpdateUser_NotFound` and
`TestGetUser_NotFound`, the last one after a failed first send. -/
theorem unexpected_status_error_witness :
    (Call.run goEnv (Call.create (some ⟨"", "Eve", 40⟩))
        (start [SendResult.ok badRequest])).1 =
      Outcome.returned none (some ⟨"unexpected status: 400 Bad Request"⟩) ∧
    (Call.run goEnv (Call.update "notfound" (some ⟨"", "Ghost", 0⟩))
        (start [SendResult.ok notFound])).1 =
      Outcome.returned none (some ⟨"unexpected status: 404 Not Found"⟩) ∧
    (Call.run goEnv (Call.get "notfound") (start [refused, SendResult.ok notFound])).1 =
      Outcome.returned none (some ⟨"unexpected status: 404 Not Found"⟩) :=
  ⟨unexpected_status_error goEnv (Call.create (some ⟨"", "Eve", 40⟩)) scripted
      (start [SendResult.ok badRequest]) badRequest rfl rfl (by decide) (by decide),
    unexpected_status_error goEnv (Call.update "notfound" (some ⟨"", "Ghost", 0⟩)) scripted
      (start [SendResult.ok notFound]) notFound rfl rfl (by decide) (by decide),
    unexpected_status_error goEnv (Call.get "notfound") scripted
      (start [refused, SendResult.ok notFound]) notFound rfl rfl (by decide) (by decide)⟩

/-- Claim C4: for each operation with a non-nil client, when the request could be built
and the transport answers it, on the first send or on a retry the operation makes,
with a response that has the expected status code and whose body the decoder turns
into the `User` value `v` without error, the call returns `v` and a nil error (the
input `User` plays no part); when the transport answers `CreateUser` with status 200,
the call returns the unexpected-status error and no `User`; and a call returns a
`User` only if its request could be built and the transport answered it with a
response of the expected status code that decoded, without error, to that `User`. -/
theorem expected_status_decoded {σ : Type} (env : Env) (call : Call) (t : Transport σ)
    (st : State σ) (hc : st.u.client = some t) :
    (∀ (resp : Response) (v : User),
        call.requestError env st.u.baseURL = none →
        firstAnswer t (call.request st.u.baseURL) call.sendAttempts st.net = some resp →
        resp.StatusCode = call.expectedStatus →
        env.decode resp.Body User.zero = (v, none) →
        (call.run env st).1 = Outcome.returned (some v) none) ∧
    (∀ (user : Option User) (resp : Response), call = Call.create user →
        firstAnswer t (call.request st.u.baseURL) call.sendAttempts st.net = some resp →
        resp.StatusCode = 200 →
        (call.run env st).1 =
          Outcome.returned none (some ⟨"unexpected status: " ++ resp.Status⟩)) ∧
    (∀ v : User, (call.run env st).1 = Outcome.returned (some v) none →
        ∃ resp : Response,
          call.requestError env st.u.baseURL = none ∧
          firstAnswer t (call.request st.u.baseURL) call.sendAttempts st.net = some resp ∧
          resp.StatusCode = call.expectedStatus ∧
          env.decode resp.Body User.zero = (v, none)) := by
  obtain ⟨err, herr, hout⟩ := call_answer env call t st hc
  refine ⟨?_, ?_, ?_⟩
  · intro resp v hreq hans hs hd
    have he : err = none := herr.mpr ⟨hreq, by simp [hans]⟩
    rw [hout, hans, he]
    simp [respond, hs, hd]
  · intro user resp hcall hans hs
    subst hcall
    have he : err = none := herr.mpr ⟨rfl, by simp [hans]⟩
    rw [hout, hans, he]
    simp [respond, hs, Call.expectedStatus, StatusCreated, Errorf]
  · intro v hv
    rw [hout] at hv
    cases err with
    | some e => rw [respond_err] at hv; simp at hv
    | none =>
      obtain ⟨hreq, hsome⟩ := herr.mp rfl
      cases hfa : firstAnswer t (call.request st.u.baseURL) call.sendAttempts st.net with
      | none => simp [hfa] at hsome
      | some resp =>
        rw [hfa] at hv
        simp only [respond] at hv
        split at hv
        · simp at hv
        · rename_i hs
          rcases hd : env.decode resp.Body User.zero with ⟨v1, e1⟩
          rw [hd] at hv
          cases e1 with
          | some e => simp at hv
          | none =>
            simp at hv
            exact ⟨resp, hreq, rfl, not_not.mp hs, by rw [hd, hv]⟩

/-- The scenarios of `TestCreateUser_Success`, `TestUpdateUser_Success` and
`TestGetUser_Success` behind failed sends, and `CreateUser` answered with 200. -/
theorem expected_status_decoded_witness :
    (Call.run goEnv (Call.create (some ⟨"", "Alice", 30⟩))
        (start [refused, SendResult.ok createdAlice])).1 =
      Outcome.returned (some alice) none ∧
    (Call.run goEnv (Call.update "123" (some ⟨"", "Al", 29⟩))
        (start [SendResult.ok okAlice])).1 = Outcome.returned (some alice) none ∧
    (Call.run goEnv (Call.get "123") (start [refused, reset, SendResult.ok okAlice])).1 =
      Outcome.returned (some alice) none ∧
    (Call.run goEnv (Call.create (some alice)) (start [SendResult.ok okAlice])).1 =
      Outcome.returned none (some ⟨"unexpected status: 200 OK"⟩) :=
  ⟨(expected_status_decoded goEnv (Call.create (some ⟨"", "Alice", 30⟩)) scripted
      (start [refused, SendResult.ok createdAlice]) rfl).1 createdAlice alice rfl
      (by decide) (by decide) (by decide),
    (expected_status_decoded goEnv (Call.update "123" (some ⟨"", "Al", 29⟩)) scripted
      (start [SendResult.ok okAlice]) rfl).1 okAlice alice rfl
      (by decide) (by decide) (by decide),
    (expected_status_decoded goEnv (Call.get "123") scripted
      (start [refused, reset, SendResult.ok okAlice]) rfl).1 okAlice alice rfl
      (by decide) (by decide) (by decide),
    (expected_status_decoded goEnv (Call.create (some alice)) scripted
      (start [SendResult.ok okAlice]) rfl).2.1 (some alice) okAlice rfl
      (by decide) (by decide)⟩

/-- Claim C5 fails as stated: the body of `okTail`, a complete `User` document followed
by `{invalid json`, is not valid JSON, the response has the expected status code of
`GetUser`, and the call returns the `User` of the document with a nil error, because
the stream decoder reads the first JSON value only; and on the body `null` the call
returns the zero `User` with a nil error. -/
theorem decode_accepts_invalid_tail :
    isValidJSON tailBody = false ∧
    okTail.StatusCode = (Call.get "123").expectedStatus ∧
    firstAnswer scripted ((Call.get "123").request "http://localhost:8080") 3
      [SendResult.ok okTail] = some okTail ∧
    (GetUser goEnv "123" (start [SendResult.ok okTail])).1 =
      Outcome.returned (some alice) none ∧
    (GetUser goEnv "123" (start [SendResult.ok okNull])).1 =
      Outcome.returned (some User.zero) none := by
  decide

/-- Claim C5, amended: for each operation with a non-nil client, when the request could
be built and the transport answers it with a response that has the expected status
code, then whenever the decoder reports an error on the body the call returns that
error and a nil `User`, whatever the decoder left in the variable it was filling; and
under the stream decoder of `encoding/json` this is the case whenever no complete JSON
value can be read at the start of the body. -/
theorem decode_failure_error {σ : Type} (env : Env) (call : Call) (t : Transport σ)
    (st : State σ) (resp : Response)
    (hc : st.u.client = some t)
    (hreq : call.requestError env st.u.baseURL = none)
    (hans : firstAnswer t (call.request st.u.baseURL) call.sendAttempts st.net = some resp)
    (hs : resp.StatusCode = call.expectedStatus) :
    (∀ (v : User) (e : Error), env.decode resp.Body User.zero = (v, some e) →
        (call.run env st).1 = Outcome.returned none (some e)) ∧
    (env.decode = Decode →
      readValue ((skipSpace resp.Body.data).length + 1) 0 (skipSpace resp.Body.data) = none →
        ∃ e, (call.run env st).1 = Outcome.returned none (some e)) := by
  obtain ⟨err, herr, hout⟩ := call_answer env call t st hc
  have he : err = none := herr.mpr ⟨hreq, by simp [hans]⟩
  have key : ∀ (v : User) (e : Error), env.decode resp.Body User.zero = (v, some e) →
      (call.run env st).1 = Outcome.returned none (some e) := by
    intro v e hd
    rw [hout, hans, he]
    simp [respond, hs, hd]
  refine ⟨key, ?_⟩
  intro henv hread
  obtain ⟨e, hd⟩ := decode_unreadable resp.Body User.zero hread
  exact ⟨e, key User.zero e (by rw [henv]; exact hd)⟩

/-- The scenarios of `TestCreateUser_BadResponseJSON`, `TestUpdateUser_BadResponseJSON`
and `TestGetUser_BadJSON`, the last one after a failed first send. -/
theorem decode_failure_error_witness :
    (∃ e, (Call.run goEnv (Call.create (some ⟨"", "Mallory", 22⟩))
        (start [SendResult.ok createdGarbage])).1 = Outcome.returned none (some e)) ∧
    (∃ e, (Call.run goEnv (Call.update "id" (some ⟨"", "Mallory", 22⟩))
        (start [SendResult.ok okGarbage])).1 = Outcome.returned none (some e)) ∧
    (∃ e, (Call.run goEnv (Call.get "123")
        (start [refused, SendResult.ok okGarbage])).1 = Outcome.returned none (some e)) :=
  ⟨(decode_failure_error goEnv (Call.create (some ⟨"", "Mallory", 22⟩)) scripted
      (start [SendResult.ok createdGarbage]) createdGarbage rfl rfl (by decide)
      (by decide)).2 rfl (by decide),
    (decode_failure_error goEnv (Call.update "id" (some ⟨"", "Mallory", 22⟩)) scripted
      (start [SendResult.ok okGarbage]) okGarbage rfl rfl (by decide) (by decide)).2 rfl
      (by decide),
    (decode_failure_error goEnv (Call.get "123") scripted
      (start [refused, SendResult.ok okGarbage]) okGarbage rfl rfl (by decide)
      (by decide)).2 rfl (by decide)⟩

/-- Claim C6: for each operation with a non-nil client, if the first send attempt of
the call returned a response, the call made exactly one send attempt, whatever the
status code of the response and whatever the decoder does with its body. -/
theorem response_not_retried {σ : Type} (env : Env) (call : Call) (t : Transport σ)
    (st : State σ) (q : Request) (resp : Response)
    (hc : st.u.client = some t)
    (hfirst : (sends (newEvents st (call.run env st).2)).head? =
      some (q, SendResult.ok resp)) :
    (sends (newEvents st (call.run env st).2)).length = 1 := by
  obtain ⟨q0, evs, resp0, err0, hrun, hev, hout⟩ := call_run env call t st hc
  rw [hev] at hfirst ⊢
  exact run_first_ok hrun q resp hfirst

/-- A 404 on the first attempt is not retried although the next answer would be 200. -/
theorem response_not_retried_witness :
    (start [SendResult.ok notFound, SendResult.ok okAlice]).u.client = some scripted ∧
    (sends (newEvents (start [SendResult.ok notFound, SendResult.ok okAlice])
      (Call.run sampleEnv (Call.get "123")
        (start [SendResult.ok notFound, SendResult.ok okAlice])).2)).length = 1 :=
  ⟨rfl, response_not_retried sampleEnv (Call.get "123") scripted
    (start [SendResult.ok notFound, SendResult.ok okAlice]) getAlice notFound rfl
    (by decide)⟩

/-- Claim C7: for `CreateUser` and `GetUser` with a non-nil client, the number of pauses
of a call is the number of failed send attempts that are followed by another attempt,
which is the number of failed attempts capped at 2 (0, 1, 2, 2 for 0, 1, 2, 3
failures); every pause lasts 100ms; the last event of the call is never a pause; and
the pauses add up to at most 200ms. -/
theorem pauses_between_attempts {σ : Type} (env : Env) (t : Transport σ) (st : State σ)
    (user : Option User) (id : String) (hc : st.u.client = some t) :
    ((sleeps (newEvents st (CreateUser env user st).2)).length =
        failedThenRetried (sends (newEvents st (CreateUser env user st).2)) ∧
      (sleeps (newEvents st (CreateUser env user st).2)).length =
        min (failures (sends (newEvents st (CreateUser env user st).2))) 2 ∧
      (∀ d ∈ sleeps (newEvents st (CreateUser env user st).2), d = 100 * Millisecond) ∧
      (∀ d, (newEvents st (CreateUser env user st).2).getLast? ≠ some (Event.sleep d)) ∧
      (sleeps (newEvents st (CreateUser env user st).2)).sum ≤ 200 * Millisecond) ∧
    ((sleeps (newEvents st (GetUser env id st).2)).length =
        failedThenRetried (sends (newEvents st (GetUser env id st).2)) ∧
      (sleeps (newEvents st (GetUser env id st).2)).length =
        min (failures (sends (newEvents st (GetUser env id st).2))) 2 ∧
      (∀ d ∈ sleeps (newEvents st (GetUser env id st).2), d = 100 * Millisecond) ∧
      (∀ d, (newEvents st (GetUser env id st).2).getLast? ≠ some (Event.sleep d)) ∧
      (sleeps (newEvents st (GetUser env id st).2)).sum ≤ 200 * Millisecond) := by
  constructor
  · obtain ⟨evs, resp, err, hrun, -, htr, -⟩ := createUser_run env user t st hc
    rw [newEvents_append _ _ _ htr]
    exact sendRun_pauses hrun
  · obtain ⟨evs, resp, err, hrun, -, htr, -⟩ := getUser_run env id t st hc
    rw [newEvents_append _ _ _ htr]
    exact sendRun_pauses hrun

/-- Three failed attempts of `GetUser`: two pauses. -/
theorem pauses_between_attempts_witness :
    (start [refused, reset, timedOut]).u.client = some scripted ∧
    failures (sends (newEvents (start [refused, reset, timedOut])
      (GetUser sampleEnv "123" (start [refused, reset, timedOut])).2)) = 3 ∧
    (sleeps (newEvents (start [refused, reset, timedOut])
      (GetUser sampleEnv "123" (start [refused, reset, timedOut])).2)).length =
        min (failures (sends (newEvents (start [refused, reset, timedOut])
          (GetUser sampleEnv "123" (start [refused, reset, timedOut])).2))) 2 :=
  ⟨rfl, by decide,
    (pauses_between_attempts sampleEnv scripted (start [refused, reset, timedOut])
      (some alice) "123" rfl).2.2.1⟩

/-- Claim C8: with a non-nil client of base URL `b`, every send attempt of a call, the
first one and every retry, carries the same request: for `CreateUser` a POST to
`b ++ "/users"` with content type `application/json` and the marshalled input as body;
for `UpdateUser` a PUT to `b ++ "/users/" ++ id` with the single header
`Content-Type: application/json` and the marshalled input as body; for `GetUser` a GET
to `b ++ "/users/" ++ id` without header and without body. -/
theorem request_shape {σ : Type} (env : Env) (t : Transport σ) (st : State σ)
    (u : User) (id : String) (hc : st.u.client = some t) :
    (∀ p ∈ sends (newEvents st (CreateUser env (some u) st).2),
      p.1 = { Method := "POST", URL := st.u.baseURL ++ "/users",
              Header := [("Content-Type", "application/json")],
              Body := some (Marshal (some u)).1 }) ∧
    (∀ p ∈ sends (newEvents st (UpdateUser env id (some u) st).2),
      p.1 = { Method := "PUT", URL := st.u.baseURL ++ "/users/" ++ id,
              Header := [("Content-Type", "application/json")],
              Body := some (Marshal (some u)).1 }) ∧
    (∀ p ∈ sends (newEvents st (GetUser env id st).2),
      p.1 = { Method := "GET", URL := st.u.baseURL ++ "/users/" ++ id,
              Header := [], Body := none }) := by
  refine ⟨?_, ?_, ?_⟩
  · obtain ⟨evs, resp, err, hrun, -, htr, -⟩ := createUser_run env (some u) t st hc
    rw [newEvents_append _ _ _ htr]
    exact sendRun_requests hrun
  · obtain ⟨evs, resp, err, hrun, -, htr, -⟩ := updateUser_run env id (some u) t st hc
    rw [newEvents_append _ _ _ htr]
    exact updateRun_requests hrun
  · obtain ⟨evs, resp, err, hrun, -, htr, -⟩ := getUser_run env id t st hc
    rw [newEvents_append _ _ _ htr]
    exact sendRun_requests hrun

/-- Both send attempts of a retried `CreateUser` carry the same POST request. -/
theorem request_shape_witness :
    (start [refused, SendResult.ok createdAlice]).u.client = some scripted ∧
    (sends (newEvents (start [refused, SendResult.ok createdAlice])
        (CreateUser sampleEnv (some alice)
          (start [refused, SendResult.ok createdAlice])).2)).length = 2 ∧
    ∀ p ∈ sends (newEvents (start [refused, SendResult.ok createdAlice])
        (CreateUser sampleEnv (some alice)
          (start [refused, SendResult.ok createdAlice])).2),
      p.1 = { Method := "POST",
              URL := (start [refused, SendResult.ok createdAlice]).u.baseURL ++ "/users",
              Header := [("Content-Type", "application/json")],
              Body := some (Marshal (some alice)).1 } :=
  ⟨rfl, by decide,
    (request_shape sampleEnv scripted (start [refused, SendResult.ok createdAlice])
      alice "123" rfl).1⟩

/-- Claim C9: the client made by `NewClient` for base URL `b` holds `b` and a non-nil
transport (the one made for it), and every call of every operation, on any state, with
any arguments and however it ends, leaves the receiver struct (base URL and transport
handle) as it was. -/
theorem client_config_unchanged {σ : Type} (dflt : Transport σ) (b : String) (env : Env)
    (call : Call) (st : State σ) :
    (NewClient dflt b).baseURL = b ∧
    (NewClient dflt b).client = some dflt ∧
    (NewClient dflt b).client ≠ none ∧
    (call.run env st).2.u = st.u := by
  refine ⟨rfl, rfl, by simp [NewClient], ?_⟩
  cases call with
  | create user => exact createUser_frame env user st
  | update id user => exact updateUser_frame env id user st
  | get id => exact getUser_frame env id st

/-- Claim C10: the document marshalled from a `User` is an object with the member `id`
exactly when `ID` is not the empty string, and always with the members `name` and
`age`, in this order and with the values of the input; marshalling returns no error,
for a nil pointer either; and with a non-nil client `CreateUser` and `UpdateUser` never
return before their loop: every call leaves an event in the trace. -/
theorem marshal_user {σ : Type} (u : User) (user : Option User) (env : Env) (id b : String)
    (t : Transport σ) (net : σ) (tr : List Event) :
    (Marshal (some u)).1 =
      JSONDoc.object
        ((if u.ID = "" then [] else [("id", JSONValue.str u.ID)]) ++
          [("name", JSONValue.str u.Name), ("age", JSONValue.num u.Age)]) ∧
    (∃ members, (Marshal (some u)).1 = JSONDoc.object members ∧
      ("id" ∈ members.map Prod.fst ↔ u.ID ≠ "") ∧
      "name" ∈ members.map Prod.fst ∧ "age" ∈ members.map Prod.fst) ∧
    (Marshal user).2 = none ∧
    newEvents ⟨⟨b, some t⟩, net, tr⟩ (CreateUser env user ⟨⟨b, some t⟩, net, tr⟩).2 ≠ [] ∧
    newEvents ⟨⟨b, some t⟩, net, tr⟩ (UpdateUser env id user ⟨⟨b, some t⟩, net, tr⟩).2 ≠ [] := by
  refine ⟨?_, ?_, ?_, ?_, ?_⟩
  · by_cases h : u.ID = "" <;> simp [Marshal, User.fields, JSONValue.isEmptyValue, h]
  · by_cases h : u.ID = "" <;> simp [Marshal, User.fields, JSONValue.isEmptyValue, h]
  · cases user <;> rfl
  · obtain ⟨evs, resp, err, hrun, -, htr, -⟩ :=
      createUser_run env user t ⟨⟨b, some t⟩, net, tr⟩ rfl
    rw [newEvents_append _ _ _ htr]
    cases hrun <;> simp
  · obtain ⟨evs, resp, err, hrun, -, htr, -⟩ :=
      updateUser_run env id user t ⟨⟨b, some t⟩, net, tr⟩ rfl
    rw [newEvents_append _ _ _ htr]
    cases hrun <;> simp

end ApiClient
